import Mathlib

/-!
# Verification of the fintech-ai-news feed aggregator (`aggregator.py`)

Shallow embedding of the single-file pipeline `src/aggregator.py`:
configuration loading, source expansion, fetch with Nitter-mirror
fallback, entry normalization, fingerprint deduplication, sorting
and persistence.

Modelling conventions:
* Python strings are Lean `String`s; character-level operations go
  through `String.toList`.
* `datetime` values are represented by their ISO-8601 `isoformat()`
  strings (the only form in which they reach the persisted rows);
  the lenient `dateutil` parser is an oracle `String → Option String`.
* External effects (`requests.get`, `feedparser.parse`,
  `os.path.exists`, the clock) are oracle fields of a `World` value;
  `none` for an HTTP response models a raised exception.
* `hashlib.md5` feeds the concatenation of its `update` arguments into
  the digest; since MD5 is a function of that concatenated byte
  stream, the fingerprint is modelled as the concatenated string
  itself (MD5 collisions on distinct streams are out of scope, while
  the concatenation ambiguity is preserved exactly).
-/

namespace Agg

/-- Python whitespace characters relevant to `str.strip()` (ASCII range). -/
def pyWs (c : Char) : Bool :=
  c = ' ' || c = '\t' || c = '\n' || c = '\r' || c = '\x0b' || c = '\x0c'

/-- `l` with leading characters satisfying `pyWs` removed. -/
def stripLeftL (l : List Char) : List Char := l.dropWhile pyWs

/-- `str.strip()` on the character list: drop `pyWs` from both ends. -/
def stripL (l : List Char) : List Char :=
  ((l.dropWhile pyWs).reverse.dropWhile pyWs).reverse

/-- Embedding of Python `s.strip()`. -/
def pyStrip (s : String) : String := String.mk (stripL s.toList)

/-- The character map performed by
`s.replace("\n", " ").replace("\r", " ")` (single-character pattern
and replacement on both calls). -/
def collapseChar (c : Char) : Char :=
  if c = '\n' || c = '\r' then ' ' else c

/-- Embedding of `s.replace("\n", " ").replace("\r", " ")`. -/
def collapseNl (s : String) : String :=
  String.mk (s.toList.map collapseChar)

/-- Python `a or b` on two strings (empty string is falsy). -/
def pyOrStr (a b : String) : String := if a = "" then b else a

/-- Python `a or b` where `a` is a `dict.get` result (`None` or a value)
and string values are falsy when empty. -/
def pyOrOpt (a : Option String) (b : Option String) : Option String :=
  match a with
  | none => b
  | some s => if s = "" then b else some s

/-- Python truthiness of a `dict.get` result. -/
def pyTruthy (a : Option String) : Bool :=
  match a with
  | none => false
  | some s => s ≠ ""

/-- Embedding of `handle.lstrip("@")`: remove every leading `'@'`. -/
def lstripAt (s : String) : String :=
  String.mk (s.toList.dropWhile (· = '@'))

/-- `pat` occurs as a contiguous substring of `s`
(embedding of Python `pat in s`). -/
def strContains (s pat : String) : Bool :=
  s.toList.tails.any (fun t => pat.toList.isPrefixOf t)

/-!
## Configuration and source expansion (`aggregator.py` lines 14–49)
-/

/-- One declaration inside a `categories` list: a YAML mapping with the
keys the code reads (`name`/`url` for named-URL lists, `handle` for
`twitter_accounts`).  Keys the code never reads are omitted. -/
structure Decl where
  name : String
  url : String
  handle : String
deriving DecidableEq, Repr

/-- The parsed `feeds.yaml`: `nitter_base` and `nitter_mirrors` are
optional, `categories` maps category names to declaration lists. -/
structure Cfg where
  nitter_base : Option String
  nitter_mirrors : Option (List String)
  categories : List (String × List Decl)
deriving Repr

/-- `categories.get(k, [])`. -/
def catGet (cats : List (String × List Decl)) (k : String) : List Decl :=
  (cats.lookup k).getD []

/-- `NITTER_BASE = cfg.get("nitter_base", "https://nitter.net")`. -/
def nitterBase (cfg : Cfg) : String :=
  cfg.nitter_base.getD "https://nitter.net"

/-- `NITTER_MIRRORS = cfg.get("nitter_mirrors", [NITTER_BASE])`. -/
def nitterMirrors (cfg : Cfg) : List String :=
  cfg.nitter_mirrors.getD [nitterBase cfg]

/-- One entry of the `feed_sources` list. -/
structure SourceSpec where
  source : String
  category : String
  url : String
  handle : Option String
deriving DecidableEq, Repr

/-- Lines 31–36: iterate `categories.get("substack", []) +
categories.get("fintech_news", [])`; the category tag is `"substack"`
when the item is a member of the substack list (Python `in`),
otherwise `"fintech_news"`. -/
def expandNamed (cats : List (String × List Decl)) : List SourceSpec :=
  (catGet cats "substack" ++ catGet cats "fintech_news").map (fun item =>
    { source := item.name
      category := if (catGet cats "substack").contains item
                  then "substack" else "fintech_news"
      url := item.url
      handle := none })

/-- Lines 39–47: one Twitter source per `twitter_accounts` declaration. -/
def expandTwitter (cats : List (String × List Decl)) (base : String) :
    List SourceSpec :=
  (catGet cats "twitter_accounts").map (fun acct =>
    let h := lstripAt acct.handle
    { source := "Twitter:" ++ h
      category := "twitter"
      url := base ++ "/" ++ h ++ "/rss"
      handle := some h })

/-- The full `feed_sources` list (lines 28–47). -/
def feedSources (cfg : Cfg) : List SourceSpec :=
  expandNamed cfg.categories ++ expandTwitter cfg.categories (nitterBase cfg)

/-!
## Raw feed entries and `parse_entry` (lines 61–87)
-/

/-- A raw `feedparser` entry: the fields `parse_entry` can read via
`entry.get(...)`, each `Option` (a missing key yields `None`).  Values
of non-string fields (e.g. `struct_time`) are represented by their
`str()` rendering, which is all `parse_entry` uses of them. -/
structure Entry where
  title : Option String := none
  link : Option String := none
  summary : Option String := none
  description : Option String := none
  published : Option String := none
  updated : Option String := none
  created : Option String := none
  published_parsed : Option String := none
  updated_parsed : Option String := none
  created_parsed : Option String := none
deriving DecidableEq, Repr

/-- `entry.get(key)` for the keys `parse_entry` reads. -/
def Entry.get (e : Entry) : String → Option String
  | "title" => e.title
  | "link" => e.link
  | "summary" => e.summary
  | "description" => e.description
  | "published" => e.published
  | "updated" => e.updated
  | "created" => e.created
  | "published_parsed" => e.published_parsed
  | "updated_parsed" => e.updated_parsed
  | "created_parsed" => e.created_parsed
  | _ => none

/-- Lines 67–78: walk `["published", "updated", "created"]`; for each,
`val = entry.get(key) or entry.get(key + "_parsed")`; if `val` is
truthy, try the lenient parser (`dtp`) on it — success breaks the
loop, an exception falls through to the next key; if nothing parsed,
default to the current UTC instant `now`. -/
def resolvePublishedGo (dtp : String → Option String) (now : String)
    (e : Entry) : List String → String
  | [] => now
  | k :: ks =>
    match pyOrOpt (e.get k) (e.get (k ++ "_parsed")) with
    | none => resolvePublishedGo dtp now e ks
    | some v =>
      if v = "" then resolvePublishedGo dtp now e ks
      else
        match dtp v with
        | some d => d
        | none => resolvePublishedGo dtp now e ks

/-- The `published` resolution of `parse_entry`. -/
def resolvePublished (dtp : String → Option String) (now : String)
    (e : Entry) : String :=
  resolvePublishedGo dtp now e ["published", "updated", "created"]

/-- Lines 64 and 81–85 on the character list: strip; if the result is
non-empty, collapse newlines/CRs to spaces, strip again, and truncate
to 2000 characters plus `"..."` when longer.  (Python slices strings
by code point, as `List.take` does here.) -/
def cleanSummaryL (l : List Char) : List Char :=
  let s := stripL l
  if s = [] then s
  else
    let s2 := stripL (s.map collapseChar)
    if 2000 < s2.length then s2.take 2000 ++ "...".toList else s2

/-- Lines 64 and 81–85 combined: the normalized summary.  Input is the
value of `entry.get("summary") or entry.get("description") or ""`. -/
def cleanSummary (raw : String) : String :=
  String.mk (cleanSummaryL raw.toList)

/-- The result quadruple of `parse_entry` (line 87). -/
structure Parsed where
  title : String
  link : String
  summary : String
  published : String
deriving DecidableEq, Repr

/-- `parse_entry(entry)` (lines 61–87). -/
def parse_entry (dtp : String → Option String) (now : String)
    (e : Entry) : Parsed :=
  { title := pyStrip ((e.get "title").getD "")
    link := pyStrip ((e.get "link").getD "")
    summary := cleanSummary ((pyOrOpt (e.get "summary") (e.get "description")).getD "")
    published := resolvePublished dtp now e }

/-!
## Fetch with mirror fallback (lines 89–114)
-/

/-- A completed HTTP response: status code and body text. -/
structure HttpResp where
  status : Nat
  text : String
deriving DecidableEq, Repr

/-- The network oracle: `requests.get` per URL; `none` models a raised
exception (timeout, connection error). -/
def Net : Type := String → Option HttpResp

/-- The mirror loop of `fetch_feed` (lines 98–106): for each base,
GET `{base}/{handle}/rss`; return the body of the first response with
status 200 and a body that is non-empty after `strip()`; exceptions
and unacceptable responses move on to the next mirror; exhaustion
yields `None`. -/
def tryMirrors (net : Net) (handle : String) : List String → Option String
  | [] => none
  | base :: rest =>
    match net (base ++ "/" ++ handle ++ "/rss") with
    | none => tryMirrors net handle rest
    | some r =>
      if r.status = 200 ∧ pyStrip r.text ≠ "" then some r.text
      else tryMirrors net handle rest

/-- `fetch_feed(url, handle)` (lines 95–114).  The mirror branch is
taken only when `handle` is truthy AND the literal substring
`"nitter"` occurs in `url`; otherwise a single direct GET with the
same acceptance criterion. -/
def fetch_feed (net : Net) (mirrors : List String) (url : String)
    (handle : Option String) : Option String :=
  if pyTruthy handle ∧ strContains url "nitter" then
    tryMirrors net (handle.getD "") mirrors
  else
    match net url with
    | none => none
    | some r =>
      if r.status = 200 ∧ pyStrip r.text ≠ "" then some r.text
      else none

/-!
## Main loop: normalize, dedupe, accumulate (lines 52–144)
-/

/-- `hash_key(*parts)` (lines 55–59): MD5 over the concatenation of
`(p or "").encode()` for each part.  The digest is modelled by the
concatenated string itself (see file header). -/
def hash_key (parts : List (Option String)) : String :=
  String.join (parts.map (fun p => p.getD ""))

/-- A persisted row (the dict appended at lines 136–144). -/
structure Row where
  source : String
  category : String
  title : String
  link : String
  summary : String
  published : String
  collected_at : String
deriving DecidableEq, Repr

/-- The row's dedupe fingerprint (line 131):
`hash_key(src["source"], title, link)`. -/
def fingerprint (r : Row) : String :=
  hash_key [some r.source, some r.title, some r.link]

/-- The mutable state of the main loop: the `seen` fingerprint set
(modelled as a list queried by membership) and the accumulated
`rows`. -/
structure RunSt where
  seen : List String
  rows : List Row
deriving DecidableEq, Repr

/-- Lines 127–144, one entry: parse, discard when
`not (title or link)`, dedupe on the fingerprint, else append. -/
def processEntry (dtp : String → Option String) (now : String)
    (src : SourceSpec) (st : RunSt) (e : Entry) : RunSt :=
  let p := parse_entry dtp now e
  if pyOrStr p.title p.link = "" then st
  else
    let key := hash_key [some src.source, some p.title, some p.link]
    if st.seen.contains key then st
    else
      { seen := key :: st.seen
        rows := st.rows ++
          [{ source := src.source
             category := src.category
             title := p.title
             link := p.link
             summary := p.summary
             published := p.published
             collected_at := now }] }

/-- The feed parser oracle: `feedparser.parse(xml).entries` (the
`bozo` flag only produces a log line). -/
def FeedParse : Type := String → List Entry

/-- Lines 116–144, one source: fetch (skip the source entirely when
that yields nothing), parse, and fold `processEntry` over the first
50 entries. -/
def processSource (net : Net) (fp : FeedParse)
    (dtp : String → Option String) (now : String) (mirrors : List String)
    (st : RunSt) (src : SourceSpec) : RunSt :=
  match fetch_feed net mirrors src.url src.handle with
  | none => st
  | some xml => ((fp xml).take 50).foldl (processEntry dtp now src) st

/-- The whole collection loop over `feed_sources`. -/
def collect (net : Net) (fp : FeedParse) (dtp : String → Option String)
    (now : String) (cfg : Cfg) : RunSt :=
  (feedSources cfg).foldl (processSource net fp dtp now (nitterMirrors cfg))
    { seen := [], rows := [] }

/-!
## Persist stage (lines 149–155)

`df.sort_values(by=["published"], ascending=False)` with the default
`kind="quicksort"`.  pandas (`nargsort`) computes the ASCENDING
argsort of the column and, because `ascending=False`, reverses the
resulting indexer.  NumPy's `quicksort` is an introsort that runs a
plain (stable) insertion sort on partitions below its cutoff of 16
elements, so for frames with at most 16 rows the ascending argsort is
exactly a stable insertion sort; the model below is therefore exact on
such inputs (on larger inputs the tie order of the unstable quicksort
is merely unspecified).  The `published` column holds `isoformat()`
strings compared lexicographically.
-/

/-- Ascending comparison used by the sort: by the `published` string. -/
def rowLe (a b : Row) : Prop := a.published ≤ b.published

instance : DecidableRel rowLe := fun a b =>
  inferInstanceAs (Decidable (a.published ≤ b.published))

instance : IsTotal Row rowLe := ⟨fun a b => le_total a.published b.published⟩

instance : IsTrans Row rowLe := ⟨fun _ _ _ h h' => le_trans h h'⟩

/-- `df.sort_values(by=["published"], ascending=False, kind="quicksort")`
as pandas executes it: stable ascending argsort (exact for ≤ 16 rows,
see above), then reversal of the indexer. -/
def sortRowsDesc (rows : List Row) : List Row :=
  (List.insertionSort rowLe rows).reverse

/-- All external effects of one run. -/
structure World where
  net : Net
  fp : FeedParse
  dtp : String → Option String
  now : String
  fsExists : String → Bool
  readCfg : String → Cfg

/-- `CFG_PATH = os.getenv("FEEDS_PATH", "config/feeds.yaml")` (line 14). -/
def cfgPath (env : String → Option String) : String :=
  (env "FEEDS_PATH").getD "config/feeds.yaml"

/-- The whole process (lines 14–155): exit code, plus the rows written
to the dated CSV (`none` when the process exits before writing any
output file). -/
def run (w : World) (env : String → Option String) :
    Nat × Option (List Row) :=
  let path := cfgPath env
  if w.fsExists path then
    let cfg := w.readCfg path
    let st := collect w.net w.fp w.dtp w.now cfg
    (0, some (sortRowsDesc st.rows))
  else
    (1, none)

/-!
## Specification-side definitions used for refinement statements
-/

/-- The candidate date values of the spec, in order: for each of
`published`, `updated`, `created`, the field value or its pre-parsed
equivalent. -/
def claimCandidates (e : Entry) : List (Option String) :=
  ["published", "updated", "created"].map
    (fun k => pyOrOpt (e.get k) (e.get (k ++ "_parsed")))

/-- Following the spec's words: among the candidate date values, the
first one that is present (truthy) and parses successfully via the
lenient parser. -/
def claimPublished (dtp : String → Option String) (e : Entry) :
    Option String :=
  (claimCandidates e).findSome? (fun v? =>
    match v? with
    | some v => if v = "" then none else dtp v
    | none => none)

/-- A mirror base yields nothing for `handle`: every completed
response is either non-200 or blank-bodied (a `none` response — an
exception — fails vacuously). -/
def mirrorFails (net : Net) (handle base : String) : Prop :=
  ∀ r, net (base ++ "/" ++ handle ++ "/rss") = some r →
    ¬(r.status = 200 ∧ pyStrip r.text ≠ "")

/-- The dedupe invariant carried by the main loop: the accumulated
rows have pairwise-distinct fingerprints, each recorded in `seen`. -/
def stInv (st : RunSt) : Prop :=
  (st.rows.map fingerprint).Nodup ∧ ∀ r ∈ st.rows, fingerprint r ∈ st.seen

/-!
## Concrete instances used by counterexamples and witnesses
-/

/-- A named-URL declaration. -/
def declX : Decl := { name := "X", url := "http://x", handle := "" }

/-- A named-URL declaration listed under two category keys below. -/
def declA : Decl := { name := "A", url := "u", handle := "" }

/-- A config whose only category key is `blogs`. -/
def cfgBlogs : Cfg :=
  { nitter_base := none, nitter_mirrors := none
    categories := [("blogs", [declX])] }

/-- A config with the same declaration under both recognized keys. -/
def cfgDup : Cfg :=
  { nitter_base := none, nitter_mirrors := none
    categories := [("substack", [declA]), ("fintech_news", [declA])] }

/-- Network: the direct URL and the first mirror both answer 200. -/
def netDirect : Net := fun u =>
  if u = "https://example.com/x/rss" then some { status := 200, text := "DIRECT" }
  else if u = "https://m1/x/rss" then some { status := 200, text := "MIRROR" }
  else none

/-- Network: mirror 1 answers 200 with a whitespace-only body,
mirror 2 answers 200 with a non-blank body. -/
def netBlank : Net := fun u =>
  if u = "https://m1/x/rss" then some { status := 200, text := "  " }
  else if u = "https://m2/x/rss" then some { status := 200, text := "B" }
  else none

/-- Network: mirror 1 raises, mirror 2 answers 200. -/
def netFallback : Net := fun u =>
  if u = "https://m2/x/rss" then some { status := 200, text := "OK" } else none

/-- Network: every request raises. -/
def netNone : Net := fun _ => none

/-- Feed parser oracle returning no entries. -/
def fpEmpty : FeedParse := fun _ => []

/-- A date parser that never parses. -/
def dtpNone : String → Option String := fun _ => none

/-- An empty environment (no `FEEDS_PATH` override). -/
def envNone : String → Option String := fun _ => none

/-- A world whose config path exists. -/
def worldOk : World :=
  { net := netNone, fp := fpEmpty, dtp := dtpNone, now := "T"
    fsExists := fun _ => true, readCfg := fun _ => cfgDup }

/-- A world whose config path does not exist. -/
def worldMissing : World :=
  { net := netNone, fp := fpEmpty, dtp := dtpNone, now := "T"
    fsExists := fun _ => false, readCfg := fun _ => cfgDup }

/-- Two rows with equal `published` and different titles. -/
def rowT0 : Row :=
  { source := "s", category := "g", title := "t0", link := "l0"
    summary := "", published := "2024", collected_at := "T" }

/-- Second row of the equal-`published` pair. -/
def rowT1 : Row :=
  { source := "s", category := "g", title := "t1", link := "l1"
    summary := "", published := "2024", collected_at := "T" }

/-- Source with display name `"ab"`. -/
def srcAB : SourceSpec :=
  { source := "ab", category := "g", url := "u1", handle := none }

/-- Source with display name `"a"`. -/
def srcA : SourceSpec :=
  { source := "a", category := "g", url := "u2", handle := none }

/-- An entry titled `"c"` with no link. -/
def entryC : Entry := { title := some "c" }

/-- An entry titled `"bc"` with no link. -/
def entryBC : Entry := { title := some "bc" }

end Agg

namespace Agg

/-!
## Helper lemmas
-/

theorem contains_false_not_mem {l : List String} {a : String}
    (h : l.contains a = false) : a ∉ l := by
  intro hm
  have ht : l.elem a = true := List.elem_iff.mpr hm
  have : (true : Bool) = false := ht.symm.trans h
  cases this

theorem pyWs_collapseChar (c : Char) : pyWs (collapseChar c) = pyWs c := by
  by_cases h1 : c = '\n'
  · subst h1; rfl
  · by_cases h2 : c = '\r'
    · subst h2; rfl
    · simp [collapseChar, h1, h2]

theorem dropWhile_map_collapse (l : List Char) :
    (l.map collapseChar).dropWhile pyWs = (l.dropWhile pyWs).map collapseChar := by
  induction l with
  | nil => rfl
  | cons a t ih =>
    simp only [List.map_cons, List.dropWhile_cons, pyWs_collapseChar]
    by_cases h : pyWs a
    · simp [h, ih]
    · simp [h]

theorem stripL_map_collapse (l : List Char) :
    stripL (l.map collapseChar) = (stripL l).map collapseChar := by
  unfold stripL
  rw [dropWhile_map_collapse, ← List.map_reverse, dropWhile_map_collapse,
    ← List.map_reverse]

theorem dropWhile_pyWs_idem (l : List Char) :
    (l.dropWhile pyWs).dropWhile pyWs = l.dropWhile pyWs := by
  induction l with
  | nil => rfl
  | cons a t ih =>
    by_cases h : pyWs a
    · simp [List.dropWhile_cons, h, ih]
    · simp [List.dropWhile_cons, h]

theorem head_not_ws_of_dropWhile_fixed {l : List Char} (a : Char) (t : List Char)
    (h : l.dropWhile pyWs = l) (hl : l = a :: t) : pyWs a = false := by
  subst hl
  by_cases hws : pyWs a
  · rw [List.dropWhile_cons, if_pos hws] at h
    have hle : (t.dropWhile pyWs).length ≤ t.length :=
      (List.dropWhile_suffix pyWs).sublist.length_le
    rw [h] at hle
    simp at hle
  · exact eq_false_of_ne_true (by simpa using hws)

theorem stripL_rev_no_ws (l : List Char) :
    ((stripL l).reverse).dropWhile pyWs = (stripL l).reverse := by
  unfold stripL
  rw [List.reverse_reverse]
  exact dropWhile_pyWs_idem _

theorem stripL_no_leading_ws (l : List Char) :
    (stripL l).dropWhile pyWs = stripL l := by
  obtain ⟨t, ht⟩ := List.dropWhile_suffix (l := (l.dropWhile pyWs).reverse) pyWs
  have hpre : stripL l ++ t.reverse = l.dropWhile pyWs := by
    have h2 := congrArg List.reverse ht
    rw [List.reverse_append, List.reverse_reverse] at h2
    exact h2
  cases hs : stripL l with
  | nil => rfl
  | cons a s =>
    have hm : l.dropWhile pyWs = a :: (s ++ t.reverse) := by
      rw [← hpre, hs]; rfl
    have hna : pyWs a = false :=
      head_not_ws_of_dropWhile_fixed a (s ++ t.reverse) (dropWhile_pyWs_idem l) hm
    rw [List.dropWhile_cons, if_neg (by simp [hna])]

theorem stripL_idem (l : List Char) : stripL (stripL l) = stripL l := by
  show ((((stripL l).dropWhile pyWs).reverse).dropWhile pyWs).reverse = stripL l
  rw [stripL_no_leading_ws, stripL_rev_no_ws, List.reverse_reverse]

end Agg

namespace Agg

theorem cleanSummaryL_eq (l : List Char) :
    cleanSummaryL l =
      if 2000 < (stripL (l.map collapseChar)).length
      then (stripL (l.map collapseChar)).take 2000 ++ "...".toList
      else stripL (l.map collapseChar) := by
  unfold cleanSummaryL
  by_cases h : stripL l = []
  · have hcl : stripL (l.map collapseChar) = [] := by
      rw [stripL_map_collapse, h]; rfl
    rw [if_pos h, hcl, h]
    simp
  · rw [if_neg h]
    have hs2 : stripL ((stripL l).map collapseChar)
        = stripL (l.map collapseChar) := by
      rw [← stripL_map_collapse, stripL_idem]
    rw [hs2]

/-- C5: for every raw entry summary whose cleaned (newlines/carriage
returns collapsed to spaces, trimmed) length is `L`, the normalized
summary has length `min L 2000`, with the 3-character marker `"..."`
appended exactly when `L > 2000`. -/
theorem C5_truncation (raw : String) :
    (cleanSummary raw).length
        = min (pyStrip (collapseNl raw)).length 2000
          + (if 2000 < (pyStrip (collapseNl raw)).length then 3 else 0) ∧
    cleanSummary raw
      = (if 2000 < (pyStrip (collapseNl raw)).length
         then String.mk ((pyStrip (collapseNl raw)).toList.take 2000
                ++ "...".toList)
         else pyStrip (collapseNl raw)) := by
  have hkey := cleanSummaryL_eq raw.toList
  have hdots : ("...".toList).length = 3 := by decide
  constructor
  · show (cleanSummaryL raw.toList).length = _
    by_cases h : 2000 < (stripL (raw.toList.map collapseChar)).length
    · have h' : 2000 < (pyStrip (collapseNl raw)).length := h
      rw [hkey, if_pos h]
      show (_ : List Char).length = _
      rw [List.length_append, List.length_take, hdots]
      have h1 : min 2000 (stripL (raw.toList.map collapseChar)).length = 2000 :=
        min_eq_left (le_of_lt h)
      have h2 : min (pyStrip (collapseNl raw)).length 2000 = 2000 :=
        min_eq_right (le_of_lt h)
      rw [h1, h2, if_pos h']
    · have h' : ¬ 2000 < (pyStrip (collapseNl raw)).length := h
      rw [hkey, if_neg h]
      have h2 : min (pyStrip (collapseNl raw)).length 2000
          = (stripL (raw.toList.map collapseChar)).length :=
        min_eq_left (not_lt.mp h)
      rw [h2, if_neg h']
      exact (Nat.add_zero _).symm
  · show String.mk (cleanSummaryL raw.toList) = _
    rw [hkey]
    by_cases h : 2000 < (stripL (raw.toList.map collapseChar)).length
    · have h' : 2000 < (pyStrip (collapseNl raw)).length := h
      rw [if_pos h, if_pos h']
      rfl
    · have h' : ¬ 2000 < (pyStrip (collapseNl raw)).length := h
      rw [if_neg h, if_neg h']
      rfl

theorem resolvePublishedGo_eq (dtp : String → Option String) (now : String)
    (e : Entry) (ks : List String) :
    resolvePublishedGo dtp now e ks =
      ((ks.map (fun k => pyOrOpt (e.get k) (e.get (k ++ "_parsed")))).findSome?
        (fun v? => match v? with
          | some v => if v = "" then none else dtp v
          | none => none)).getD now := by
  induction ks with
  | nil => rfl
  | cons k ks ih =>
    rw [List.map_cons, List.findSome?_cons]
    show (match pyOrOpt (e.get k) (e.get (k ++ "_parsed")) with
      | none => resolvePublishedGo dtp now e ks
      | some v =>
        if v = "" then resolvePublishedGo dtp now e ks
        else
          match dtp v with
          | some d => d
          | none => resolvePublishedGo dtp now e ks) = _
    cases hv : pyOrOpt (e.get k) (e.get (k ++ "_parsed")) with
    | none => simpa using ih
    | some v =>
      by_cases hve : v = ""
      · subst hve; simpa using ih
      · simp only [if_neg hve]
        cases hd : dtp v with
        | some d => simp [hve, hd]
        | none => simpa [hve, hd] using ih

/-- C6: the normalized `published` value is the first of the entry's
`published`, `updated`, `created` fields (or their pre-parsed
equivalents) that parses via the lenient date parser, and defaults to
the current collection instant when no candidate parses. -/
theorem C6_published_resolution (dtp : String → Option String)
    (now : String) (e : Entry) :
    resolvePublished dtp now e = (claimPublished dtp e).getD now ∧
    (claimPublished dtp e = none → resolvePublished dtp now e = now) := by
  have h := resolvePublishedGo_eq dtp now e ["published", "updated", "created"]
  refine ⟨h, fun hn => ?_⟩
  rw [show resolvePublished dtp now e = (claimPublished dtp e).getD now from h,
    hn]
  rfl

/-- Witness for C6: an entry with no date fields at all resolves to
the collection instant. -/
theorem C6_witness :
    resolvePublished dtpNone "T" entryC = "T" :=
  (C6_published_resolution dtpNone "T" entryC).2 rfl

end Agg

namespace Agg

theorem processEntry_discard (dtp : String → Option String) (now : String)
    (src : SourceSpec) (st : RunSt) (e : Entry)
    (hd : pyOrStr (parse_entry dtp now e).title (parse_entry dtp now e).link
      = "") :
    processEntry dtp now src st e = st := by
  simp only [processEntry]
  rw [if_pos hd]

theorem processEntry_drop (dtp : String → Option String) (now : String)
    (src : SourceSpec) (st : RunSt) (e : Entry)
    (hd : pyOrStr (parse_entry dtp now e).title (parse_entry dtp now e).link
      ≠ "")
    (hc : st.seen.contains (hash_key [some src.source,
      some (parse_entry dtp now e).title,
      some (parse_entry dtp now e).link]) = true) :
    processEntry dtp now src st e = st := by
  simp only [processEntry]
  rw [if_neg hd, if_pos hc]

/-- C7: an entry whose trimmed `title` and trimmed `link` are both
empty is excluded from the output regardless of its other fields;
with either one non-empty the discard check does not fire. -/
theorem C7_discard (dtp : String → Option String) (now : String)
    (src : SourceSpec) (st : RunSt) (e : Entry) :
    ((parse_entry dtp now e).title = "" ∧ (parse_entry dtp now e).link = "" →
      processEntry dtp now src st e = st) ∧
    ((parse_entry dtp now e).title ≠ "" ∨ (parse_entry dtp now e).link ≠ "" →
      pyOrStr (parse_entry dtp now e).title (parse_entry dtp now e).link
        ≠ "") := by
  constructor
  · rintro ⟨h1, h2⟩
    exact processEntry_discard dtp now src st e (by rw [h1, h2]; rfl)
  · intro h
    unfold pyOrStr
    by_cases ha : (parse_entry dtp now e).title = ""
    · rw [if_pos ha]
      rcases h with h | h
      · exact absurd ha h
      · exact h
    · rw [if_neg ha]
      exact ha

/-- Witness for C7: a concrete titleless, linkless entry is dropped. -/
theorem C7_witness :
    processEntry dtpNone "T" srcA { seen := [], rows := [] }
        { summary := some "s" } = { seen := [], rows := [] } :=
  (C7_discard dtpNone "T" srcA { seen := [], rows := [] }
    { summary := some "s" }).1 ⟨rfl, rfl⟩

theorem stInv_processEntry (dtp : String → Option String) (now : String)
    (src : SourceSpec) (e : Entry) {st : RunSt} (h : stInv st) :
    stInv (processEntry dtp now src st e) := by
  simp only [processEntry]
  by_cases h1 : pyOrStr (parse_entry dtp now e).title
      (parse_entry dtp now e).link = ""
  · rw [if_pos h1]; exact h
  · rw [if_neg h1]
    by_cases h2 : st.seen.contains (hash_key [some src.source,
        some (parse_entry dtp now e).title,
        some (parse_entry dtp now e).link]) = true
    · rw [if_pos h2]; exact h
    · rw [if_neg h2]
      have h2f : st.seen.contains (hash_key [some src.source,
          some (parse_entry dtp now e).title,
          some (parse_entry dtp now e).link]) = false := by
        simpa using h2
      have hnot := contains_false_not_mem h2f
      constructor
      · rw [List.map_append, List.nodup_append]
        refine ⟨h.1, by simp, ?_⟩
        intro a ha hb
        simp only [List.map_cons, List.map_nil, List.mem_singleton] at hb
        have hfp : a ∈ st.seen := by
          rcases List.mem_map.mp ha with ⟨r, hr, hra⟩
          rw [← hra]
          exact h.2 r hr
        rw [hb] at hfp
        exact hnot hfp
      · intro r hr
        rcases List.mem_append.mp hr with hr | hr
        · exact List.mem_cons_of_mem _ (h.2 r hr)
        · rw [List.mem_singleton] at hr
          rw [hr]
          exact List.mem_cons_self _ _
  
theorem stInv_foldl_entries (dtp : String → Option String) (now : String)
    (src : SourceSpec) (es : List Entry) {st : RunSt} (h : stInv st) :
    stInv (es.foldl (processEntry dtp now src) st) := by
  induction es generalizing st with
  | nil => exact h
  | cons e es ih => exact ih (stInv_processEntry dtp now src e h)

theorem stInv_processSource (net : Net) (fp : FeedParse)
    (dtp : String → Option String) (now : String) (mirrors : List String)
    (src : SourceSpec) {st : RunSt} (h : stInv st) :
    stInv (processSource net fp dtp now mirrors st src) := by
  simp only [processSource]
  split
  · exact h
  · exact stInv_foldl_entries dtp now src _ h

theorem stInv_collect (net : Net) (fp : FeedParse)
    (dtp : String → Option String) (now : String) (cfg : Cfg) :
    stInv (collect net fp dtp now cfg) := by
  unfold collect
  have hgen : ∀ (srcs : List SourceSpec) (st : RunSt), stInv st →
      stInv (srcs.foldl (processSource net fp dtp now (nitterMirrors cfg)) st) := by
    intro srcs
    induction srcs with
    | nil => intro st h; exact h
    | cons s ss ih =>
      intro st h
      exact ih _ (stInv_processSource net fp dtp now (nitterMirrors cfg) s h)
  exact hgen _ _ ⟨List.nodup_nil, fun r hr => absurd hr (List.not_mem_nil r)⟩

/-- C4: within a run the persisted records have pairwise-distinct
fingerprints, and a candidate whose fingerprint is already recorded —
in particular one agreeing with an earlier record on
(source, title, link) while differing in summary, published or
collected_at — is dropped silently, leaving the state unchanged. -/
theorem C4_dedupe (net : Net) (fp : FeedParse)
    (dtp dtp' : String → Option String) (now now' : String) (cfg : Cfg)
    (src src' : SourceSpec) (st : RunSt) (e e' : Entry)
    (hsrc : src.source = src'.source)
    (ht : (parse_entry dtp now e).title = (parse_entry dtp' now' e').title)
    (hl : (parse_entry dtp now e).link = (parse_entry dtp' now' e').link) :
    ((collect net fp dtp now cfg).rows.map fingerprint).Nodup ∧
    processEntry dtp' now' src' (processEntry dtp now src st e) e' =
      processEntry dtp now src st e := by
  refine ⟨(stInv_collect net fp dtp now cfg).1, ?_⟩
  by_cases hd : pyOrStr (parse_entry dtp now e).title
      (parse_entry dtp now e).link = ""
  · have hd' : pyOrStr (parse_entry dtp' now' e').title
        (parse_entry dtp' now' e').link = "" := by
      rw [← ht, ← hl]; exact hd
    rw [processEntry_discard dtp now src st e hd]
    exact processEntry_discard dtp' now' src' st e' hd'
  · have hd' : pyOrStr (parse_entry dtp' now' e').title
        (parse_entry dtp' now' e').link ≠ "" := by
      rw [← ht, ← hl]; exact hd
    have hkey : hash_key [some src'.source,
        some (parse_entry dtp' now' e').title,
        some (parse_entry dtp' now' e').link]
      = hash_key [some src.source, some (parse_entry dtp now e).title,
          some (parse_entry dtp now e).link] := by
      rw [hsrc, ht, hl]
    have hmem : hash_key [some src.source, some (parse_entry dtp now e).title,
        some (parse_entry dtp now e).link] ∈
          (processEntry dtp now src st e).seen := by
      simp only [processEntry]
      rw [if_neg hd]
      by_cases hc : st.seen.contains (hash_key [some src.source,
          some (parse_entry dtp now e).title,
          some (parse_entry dtp now e).link]) = true
      · rw [if_pos hc]
        exact List.elem_iff.mp hc
      · rw [if_neg hc]
        exact List.mem_cons_self _ _
    have hcont : (processEntry dtp now src st e).seen.contains
        (hash_key [some src'.source, some (parse_entry dtp' now' e').title,
          some (parse_entry dtp' now' e').link]) = true := by
      rw [hkey]
      exact List.elem_iff.mpr hmem
    exact processEntry_drop dtp' now' src' _ e' hd' hcont

/-- Witness for C4: two concrete entries agreeing on (source, title,
link) but with different summaries; the second is dropped. -/
theorem C4_witness :
    ((collect netNone fpEmpty dtpNone "T" cfgDup).rows.map fingerprint).Nodup ∧
    processEntry dtpNone "T" srcA
        (processEntry dtpNone "T" srcA { seen := [], rows := [] }
          { title := some "bc" })
        { title := some "bc", summary := some "different" } =
      processEntry dtpNone "T" srcA { seen := [], rows := [] }
        { title := some "bc" } :=
  C4_dedupe netNone fpEmpty dtpNone dtpNone "T" "T" cfgDup srcA srcA
    { seen := [], rows := [] } { title := some "bc" }
    { title := some "bc", summary := some "different" } rfl rfl rfl

end Agg

namespace Agg

/-- C8: a missing configuration path makes the process exit with code
1 before fetching anything, with no output file written; with the path
present the run always completes with exit code 0. -/
theorem C8_fatal_config (w : World) (env : String → Option String) :
    (w.fsExists (cfgPath env) = false → run w env = (1, none)) ∧
    (w.fsExists (cfgPath env) = true →
      (run w env).1 = 0 ∧ (run w env).2 ≠ none) := by
  constructor
  · intro h
    simp [run, h]
  · intro h
    simp [run, h]

/-- Witness for C8: a world without the config file exits 1 writing
nothing; a world with it exits 0. -/
theorem C8_witness :
    run worldMissing envNone = (1, none) ∧ (run worldOk envNone).1 = 0 :=
  ⟨(C8_fatal_config worldMissing envNone).1 rfl,
   ((C8_fatal_config worldOk envNone).2 rfl).1⟩

/-- C9: a source whose fetch yields nothing contributes zero records
and is simply skipped by the loop, and the run still exits 0. -/
theorem C9_soft_failures (w : World) (env : String → Option String)
    (net : Net) (fp : FeedParse) (dtp : String → Option String)
    (now : String) (mirrors : List String) (pre post : List SourceSpec)
    (src : SourceSpec) (st : RunSt)
    (hcfg : w.fsExists (cfgPath env) = true)
    (hfail : fetch_feed net mirrors src.url src.handle = none) :
    (run w env).1 = 0 ∧
    (pre ++ src :: post).foldl (processSource net fp dtp now mirrors) st =
      (pre ++ post).foldl (processSource net fp dtp now mirrors) st := by
  constructor
  · simp [run, hcfg]
  · rw [List.foldl_append, List.foldl_append, List.foldl_cons]
    have hskip : processSource net fp dtp now mirrors
        (pre.foldl (processSource net fp dtp now mirrors) st) src =
        pre.foldl (processSource net fp dtp now mirrors) st := by
      simp only [processSource, hfail]
    rw [hskip]

/-- Witness for C9: a run over an all-failing network exits 0, and an
unreachable source is skipped. -/
theorem C9_witness :
    (run worldOk envNone).1 = 0 ∧
    ([srcA] : List SourceSpec).foldl
        (processSource netNone fpEmpty dtpNone "T" [])
        { seen := [], rows := [] } =
      ([] : List SourceSpec).foldl
        (processSource netNone fpEmpty dtpNone "T" [])
        { seen := [], rows := [] } :=
  C9_soft_failures worldOk envNone netNone fpEmpty dtpNone "T" [] [] []
    srcA { seen := [], rows := [] } rfl rfl

theorem tryMirrors_eq_none (net : Net) (h : String) :
    ∀ ms : List String, (∀ b ∈ ms, mirrorFails net h b) →
      tryMirrors net h ms = none := by
  intro ms
  induction ms with
  | nil => intro _; rfl
  | cons b bs ih =>
    intro hall
    cases hr : net (b ++ "/" ++ h ++ "/rss") with
    | none =>
      simp only [tryMirrors, hr]
      exact ih (fun x hx => hall x (List.mem_cons_of_mem _ hx))
    | some r =>
      have hb := hall b (List.mem_cons_self _ _) r hr
      simp only [tryMirrors, hr]
      rw [if_neg hb]
      exact ih (fun x hx => hall x (List.mem_cons_of_mem _ hx))

theorem tryMirrors_append_fails (net : Net) (h : String) (ms : List String) :
    ∀ pre : List String, (∀ b ∈ pre, mirrorFails net h b) →
      tryMirrors net h (pre ++ ms) = tryMirrors net h ms := by
  intro pre
  induction pre with
  | nil => intro _; rfl
  | cons b bs ih =>
    intro hpre
    cases hr : net (b ++ "/" ++ h ++ "/rss") with
    | none =>
      simp only [List.cons_append, tryMirrors, hr]
      exact ih (fun x hx => hpre x (List.mem_cons_of_mem _ hx))
    | some r =>
      have hb := hpre b (List.mem_cons_self _ _) r hr
      simp only [List.cons_append, tryMirrors, hr]
      rw [if_neg hb]
      exact ih (fun x hx => hpre x (List.mem_cons_of_mem _ hx))

/-- C3 counterexample: with `mirror_key` set but no `"nitter"`
substring in the URL, the mirrors are NOT consulted (the direct body
is returned although a mirror would have answered); and a mirror
response with status 200 and a non-empty (whitespace-only) body is
skipped rather than accepted. -/
theorem C3_counterexample :
    fetch_feed netDirect ["https://m1"] "https://example.com/x/rss"
        (some "x") = some "DIRECT" ∧
    netDirect "https://m1/x/rss" = some { status := 200, text := "MIRROR" } ∧
    fetch_feed netBlank ["https://m1", "https://m2"]
        "https://nitter.net/x/rss" (some "x") = some "B" ∧
    netBlank "https://m1/x/rss" = some { status := 200, text := "  " } := by
  refine ⟨by decide, rfl, by decide, rfl⟩

/-- C3 (amended): mirror fallback triggers only when `mirror_key` is a
non-empty string AND the URL contains the substring `"nitter"`; then
the mirrors are tried in order, the first response with status 200 and
a non-blank (whitespace-stripped non-empty) body is returned, and
exhaustion of all mirrors yields nothing. -/
theorem C3_amended (net : Net) (mirrors : List String) (url : String)
    (h : String) (hh : h ≠ "") (hn : strContains url "nitter" = true) :
    fetch_feed net mirrors url (some h) = tryMirrors net h mirrors ∧
    ((∀ b ∈ mirrors, mirrorFails net h b) →
      fetch_feed net mirrors url (some h) = none) ∧
    (∀ pre base rest, mirrors = pre ++ base :: rest →
      (∀ b ∈ pre, mirrorFails net h b) →
      ∀ r : HttpResp, net (base ++ "/" ++ h ++ "/rss") = some r →
        r.status = 200 → pyStrip r.text ≠ "" →
        fetch_feed net mirrors url (some h) = some r.text) := by
  have htrig : fetch_feed net mirrors url (some h)
      = tryMirrors net h mirrors := by
    simp only [fetch_feed]
    rw [if_pos ⟨by simp [pyTruthy, hh], hn⟩]
    rfl
  refine ⟨htrig, fun hall => ?_, fun pre base rest hm hpre r hr h200 hne => ?_⟩
  · rw [htrig]
    exact tryMirrors_eq_none net h mirrors hall
  · rw [htrig, hm, tryMirrors_append_fails net h (base :: rest) pre hpre]
    simp only [tryMirrors, hr]
    rw [if_pos ⟨h200, hne⟩]

/-- Witness for C3 (amended): first mirror unreachable, second answers
200 — the second mirror's body is returned. -/
theorem C3_witness :
    fetch_feed netFallback ["https://m1", "https://m2"]
        "https://nitter.net/x/rss" (some "x") = some "OK" :=
  (C3_amended netFallback ["https://m1", "https://m2"]
      "https://nitter.net/x/rss" "x" (by decide) (by decide)).2.2
    ["https://m1"] "https://m2" [] rfl
    (by
      intro b hb r hr
      rw [List.mem_singleton] at hb
      subst hb
      have hneq : netFallback ("https://m1" ++ "/" ++ "x" ++ "/rss")
          = none := by decide
      rw [hneq] at hr
      cases hr)
    { status := 200, text := "OK" } rfl rfl (by decide)

end Agg

namespace Agg

/-- C2 counterexample: two rows with equal `published` come out of the
persist-stage sort in REVERSED input order, not input order. -/
theorem C2_counterexample :
    rowT0.published = rowT1.published ∧ rowT0 ≠ rowT1 ∧
    sortRowsDesc [rowT0, rowT1] = [rowT1, rowT0] := by
  refine ⟨rfl, by decide, ?_⟩
  have hle : rowLe rowT0 rowT1 := le_of_eq rfl
  unfold sortRowsDesc
  simp [List.insertionSort, List.orderedInsert, hle]

/-- C2 (amended): the persisted rows are a permutation of the kept
records sorted by `published` descending, but equal-`published` rows
do NOT keep their input order: pandas implements the descending sort
by reversing an ascending argsort, so an equal-`published` pair
appears in reversed input order. -/
theorem C2_amended (rows : List Row) (r1 r2 : Row)
    (h : r1.published = r2.published) :
    (sortRowsDesc rows).Perm rows ∧
    List.Sorted (fun a b : Row => b.published ≤ a.published)
      (sortRowsDesc rows) ∧
    sortRowsDesc [r1, r2] = [r2, r1] := by
  refine ⟨?_, ?_, ?_⟩
  · exact (List.reverse_perm _).trans (List.perm_insertionSort rowLe rows)
  · unfold sortRowsDesc
    refine List.pairwise_reverse.mpr ?_
    exact List.sorted_insertionSort rowLe rows
  · have hle : rowLe r1 r2 := le_of_eq h
    unfold sortRowsDesc
    simp [List.insertionSort, List.orderedInsert, hle]

/-- Witness for C2 (amended), at a concrete equal-`published` pair. -/
theorem C2_witness :
    (sortRowsDesc [rowT0, rowT1]).Perm [rowT0, rowT1] ∧
    List.Sorted (fun a b : Row => b.published ≤ a.published)
      (sortRowsDesc [rowT0, rowT1]) ∧
    sortRowsDesc [rowT0, rowT1] = [rowT1, rowT0] :=
  C2_amended [rowT0, rowT1] rowT0 rowT1 rfl

/-- C1 counterexample: a configuration category key other than
`twitter_accounts` (here `"blogs"`) is ignored by the expander: its
declaration yields no SourceSpec at all, in particular none tagged
`"blogs"`. -/
theorem C1_counterexample :
    catGet cfgBlogs.categories "blogs" = [declX] ∧
    feedSources cfgBlogs = [] ∧
    ¬ ∃ s, s ∈ feedSources cfgBlogs ∧ s.category = "blogs" := by
  refine ⟨rfl, rfl, ?_⟩
  rintro ⟨s, hs, -⟩
  rw [show feedSources cfgBlogs = [] from rfl] at hs
  cases hs

/-- C1 (amended): the expander reads only the `substack` and
`fintech_news` keys (every produced source is tagged `substack`,
`fintech_news` or `twitter`; other keys produce nothing); every
substack declaration yields a source tagged `substack`; every
fintech_news declaration yields a source whose tag is `substack`
exactly when the identical declaration is also a member of the
substack list, so a duplicated declaration is tagged `substack` in
both positions. -/
theorem C1_amended (cfg : Cfg) :
    (∀ s ∈ feedSources cfg,
      s.category = "substack" ∨ s.category = "fintech_news" ∨
        s.category = "twitter") ∧
    (∀ item ∈ catGet cfg.categories "substack",
      ({ source := item.name, category := "substack", url := item.url,
         handle := none } : SourceSpec) ∈ feedSources cfg) ∧
    (∀ item ∈ catGet cfg.categories "fintech_news",
      ({ source := item.name,
         category := if (catGet cfg.categories "substack").contains item
                     then "substack" else "fintech_news",
         url := item.url, handle := none } : SourceSpec)
        ∈ feedSources cfg) := by
  refine ⟨?_, ?_, ?_⟩
  · intro s hs
    rcases List.mem_append.mp hs with hs | hs
    · rcases List.mem_map.mp hs with ⟨item, -, rfl⟩
      by_cases hc : (catGet cfg.categories "substack").contains item = true
      · left; simp only [if_pos hc]
      · right; left; simp only [if_neg hc]
    · rcases List.mem_map.mp hs with ⟨acct, -, rfl⟩
      right; right; rfl
  · intro item hit
    have hc : (catGet cfg.categories "substack").contains item = true :=
      List.elem_iff.mpr hit
    refine List.mem_append_left _
      (List.mem_map.mpr ⟨item, List.mem_append_left _ hit, ?_⟩)
    simp only [if_pos hc]
  · intro item hit
    exact List.mem_append_left _
      (List.mem_map.mpr ⟨item, List.mem_append_right _ hit, rfl⟩)

/-- Witness for C1 (amended): in the duplicated-declaration config the
declaration appears among the sources tagged `substack`, and its
fintech_news occurrence carries the membership-test tag. -/
theorem C1_witness :
    ({ source := "A", category := "substack", url := "u", handle := none }
        : SourceSpec) ∈ feedSources cfgDup ∧
    ({ source := "A",
       category := if (catGet cfgDup.categories "substack").contains declA
                   then "substack" else "fintech_news",
       url := "u", handle := none } : SourceSpec) ∈ feedSources cfgDup :=
  ⟨(C1_amended cfgDup).2.1 declA (by decide),
   (C1_amended cfgDup).2.2 declA (by decide)⟩

/-- C10: the fingerprint concatenates its parts with no separator
before hashing, so distinct (source, title, link) triples collide
(e.g. ("ab","c","") and ("a","bc","")), and consequently a record
with a genuinely different triple is silently dropped as a duplicate
of an earlier record. -/
theorem C10_collision :
    hash_key [some "ab", some "c", some ""]
        = hash_key [some "a", some "bc", some ""] ∧
    (("ab", "c", "") : String × String × String) ≠ ("a", "bc", "") ∧
    srcAB.source ≠ srcA.source ∧
    processEntry dtpNone "T" srcA
        (processEntry dtpNone "T" srcAB { seen := [], rows := [] } entryC)
        entryBC =
      processEntry dtpNone "T" srcAB { seen := [], rows := [] } entryC := by
  refine ⟨by decide, by decide, by decide, by decide⟩

end Agg
